import Mathlib

/-!
# Verification of the azalogger log-level control and in-memory backend

Shallow embedding of the `azalogger` Go package: the severity model, the
in-memory logging backend (`inMemory.go`, plus the earlier variant of the
same file), the slog backend's level parsing and HTTP level-control handler
(`slog.go`), the zap backend's handler wrapper (`zap.go`), and the shared
configuration resolution (`getLogLevel`).

Go string values are modelled as `String`; Go `...any` variadic key/value
arguments are modelled as `List String`, each element standing for the
`%v` rendering of the corresponding Go value.  Stateful methods are
modelled by explicit state passing: a Go method that mutates its receiver
becomes a Lean function returning the updated record, and Go's pointer
aliasing (several handles to one logger) is modelled by threading a single
state value.
-/

/-! ## Shared types (`azalogger.go`): levels and configuration -/

/-- `DebugLevel LogLevel = "debug"`. -/
def DebugLevel : String := "debug"

/-- `InfoLevel LogLevel = "info"`. -/
def InfoLevel : String := "info"

/-- `WarnLevel LogLevel = "warn"`. -/
def WarnLevel : String := "warn"

/-- `ErrorLevel LogLevel = "error"`. -/
def ErrorLevel : String := "error"

/-- `FatalLevel LogLevel = "fatal"`. -/
def FatalLevel : String := "fatal"

/-- `Config` from `azalogger.go`.  The `Backend` selector plays no role in
the claims considered here and is omitted; Go zero values are the empty
string. -/
structure Config where
  LogLevel : String := ""
  Env : String := ""
deriving Repr, DecidableEq

/-- `getLogLevel(cfg Config) LogLevel` from `azalogger.go`.  The process
environment is passed explicitly: `envVal` is the value of
`os.Getenv("AZA_LOG_LEVEL")` (the empty string when the variable is
unset). -/
def getLogLevel (envVal : String) (cfg : Config) : String :=
  let level := envVal
  if level = "" then
    let level := cfg.LogLevel
    if level = "" then InfoLevel else level
  else level

/-! ## Severity model (spec side)

The spec describes severities as an enumerated type with ranks 0..4 and a
gating contract `shouldEmit`.  These definitions follow the spec's words
and are compared against the source-side string guards below. -/

/-- Spec-side severity enumeration: five ordered levels. -/
inductive Severity where
  | debug
  | info
  | warn
  | error
  | fatal
deriving Repr, DecidableEq

/-- Spec-side rank 0..4 of a severity. -/
def Severity.rank : Severity → Nat
  | .debug => 0
  | .info => 1
  | .warn => 2
  | .error => 3
  | .fatal => 4

/-- Spec-side gating contract: `shouldEmit(current, candidate)` is true iff
`candidate.rank >= current.rank`. -/
def shouldEmit (current candidate : Severity) : Bool :=
  candidate.rank ≥ current.rank

/-- Spec-side case-sensitive parsing of the five level strings. -/
def severityOfString : String → Option Severity
  | "debug" => some .debug
  | "info" => some .info
  | "warn" => some .warn
  | "error" => some .error
  | "fatal" => some .fatal
  | _ => none

/-! ## In-memory backend (`inMemory.go`, current version) -/

/-- `InMemoryLogger` from `inMemory.go`: the byte buffer is modelled as the
accumulated `String`, the injected fields as the list of already formatted
`key=value` strings.  The mutex only serializes access and has no
functional content in a sequential model. -/
structure InMemoryLogger where
  buffer : String
  logLevel : String
  injectedFields : List String
deriving Repr, DecidableEq

/-- `isValidLogLevel(logLevel string) bool` from `inMemory.go`. -/
def isValidLogLevel (logLevel : String) : Bool :=
  if logLevel = DebugLevel then true
  else if logLevel = InfoLevel then true
  else if logLevel = WarnLevel then true
  else if logLevel = ErrorLevel then true
  else if logLevel = FatalLevel then true
  else false

/-- `newInMemoryLogger(cfg Config)` from `inMemory.go`: an invalid
configured level is replaced by `InfoLevel` before being stored. -/
def newInMemoryLogger (cfg : Config) : InMemoryLogger :=
  let cfgLevel := if isValidLogLevel cfg.LogLevel then cfg.LogLevel else InfoLevel
  { buffer := "", logLevel := cfgLevel, injectedFields := [] }

/-- The ` k=v` tokens written by the pairing loop in `InMemoryLogger.log`:
iterate two at a time, emit a token only when a paired value exists, so an
odd trailing element is skipped. -/
def pairTokens : List String → String
  | k :: v :: rest => " " ++ k ++ "=" ++ v ++ pairTokens rest
  | _ => ""

/-- The `k=v` strings appended by the pairing loop in
`InMemoryLogger.With`: same two-at-a-time iteration, odd trailing element
skipped. -/
def pairFields : List String → List String
  | k :: v :: rest => (k ++ "=" ++ v) :: pairFields rest
  | _ => []

/-- The ` field` tokens written for the injected fields in
`InMemoryLogger.log`. -/
def fieldTokens : List String → String
  | [] => ""
  | f :: rest => " " ++ f ++ fieldTokens rest

/-- One formatted line as produced by `InMemoryLogger.log` before the
terminating newline: `[LEVEL] msg` then call-site pair tokens then
injected-field tokens. -/
def logLine (level msg : String) (kv : List String) (fields : List String) : String :=
  "[" ++ level ++ "] " ++ msg ++ pairTokens kv ++ fieldTokens fields

/-- `InMemoryLogger.log` from `inMemory.go`: appends one formatted,
newline-terminated line to the buffer. -/
def InMemoryLogger.log (l : InMemoryLogger) (level msg : String) (kv : List String) : InMemoryLogger :=
  { l with buffer := l.buffer ++ logLine level msg kv l.injectedFields ++ "\n" }

/-- `InMemoryLogger.Debug`: emits only when the stored level is `debug`. -/
def InMemoryLogger.Debug (l : InMemoryLogger) (msg : String) (kv : List String) : InMemoryLogger :=
  if l.logLevel = DebugLevel then l.log "DEBUG" msg kv else l

/-- `InMemoryLogger.Info`: emits when the stored level is `debug` or `info`. -/
def InMemoryLogger.Info (l : InMemoryLogger) (msg : String) (kv : List String) : InMemoryLogger :=
  if l.logLevel = DebugLevel ∨ l.logLevel = InfoLevel then l.log "INFO" msg kv else l

/-- `InMemoryLogger.Warn`: emits when the stored level is `debug`, `info`
or `warn`. -/
def InMemoryLogger.Warn (l : InMemoryLogger) (msg : String) (kv : List String) : InMemoryLogger :=
  if l.logLevel = DebugLevel ∨ l.logLevel = InfoLevel ∨ l.logLevel = WarnLevel then
    l.log "WARN" msg kv
  else l

/-- `InMemoryLogger.Error`: emits when the stored level is `debug`, `info`,
`warn` or `error`. -/
def InMemoryLogger.Error (l : InMemoryLogger) (msg : String) (kv : List String) : InMemoryLogger :=
  if l.logLevel = DebugLevel ∨ l.logLevel = InfoLevel ∨ l.logLevel = WarnLevel ∨
      l.logLevel = ErrorLevel then
    l.log "ERROR" msg kv
  else l

/-- `InMemoryLogger.Fatal`: always emits (the in-memory backend never
terminates the process). -/
def InMemoryLogger.Fatal (l : InMemoryLogger) (msg : String) (kv : List String) : InMemoryLogger :=
  l.log "FATAL" msg kv

/-- `InMemoryLogger.With`: appends the well-formed pairs to the injected
fields.  The Go method mutates the receiver and returns the same pointer;
here the single state value is the updated record. -/
def InMemoryLogger.With (l : InMemoryLogger) (kv : List String) : InMemoryLogger :=
  { l with injectedFields := l.injectedFields ++ pairFields kv }

/-- `InMemoryLogger.LogLevel`. -/
def InMemoryLogger.LogLevel (l : InMemoryLogger) : String :=
  l.logLevel

/-- Accumulator loop of `strings.Split(s, "\n")`: cut the character stream
at every newline; a final newline leaves a trailing empty piece. -/
def splitLinesAux : List Char → List Char → List String
  | [], acc => [String.mk acc.reverse]
  | c :: rest, acc =>
    if c = '\n' then String.mk acc.reverse :: splitLinesAux rest []
    else splitLinesAux rest (c :: acc)

/-- Go's `strings.Split(s, "\n")`: the pieces of `s` between newline
separators, in order, including empty pieces. -/
def stringsSplitNL (s : String) : List String :=
  splitLinesAux s.data []

/-- `InMemoryLogger.Entries`: `strings.Split(buffer, "\n")`. -/
def InMemoryLogger.Entries (l : InMemoryLogger) : List String :=
  stringsSplitNL l.buffer


/-! ## HTTP model

Requests and responses are modelled with the fields the handlers inspect.
JSON encoding/decoding is delegated in the source to `encoding/json`
(an external collaborator); its contract is modelled by carrying the
decode result in the request: `body = none` stands for a request body
that is not well-formed JSON for the `{"level": string}` payload shape,
`body = some s` for a body that decodes to a payload whose `level` field
is `s`.  `http.Error(w, msg, code)` writes `msg` plus a newline and sets
the status code. -/

/-- An inbound HTTP request, reduced to what the level handlers inspect. -/
structure HttpRequest where
  method : String
  body : Option String
deriving Repr, DecidableEq

/-- The observable response: status code and body text. -/
structure HttpResponse where
  status : Nat
  body : String
deriving Repr, DecidableEq

/-- `AuthorizationHandler` from `azalogger.go`; the Go `nil` handler is
`none`. -/
def AuthorizationHandler := Option (HttpRequest → Bool)

/-- `InMemoryLogger.HTTPLevelHandler` from `inMemory.go`: every request,
whatever its method, payload or caller, is answered with
`http.Error(..., 501)` and the logger is untouched.  (This variant of the
handler takes no authorization argument in the source.) -/
def InMemoryLogger.HTTPLevelHandler (l : InMemoryLogger) (r : HttpRequest) :
    HttpResponse × InMemoryLogger :=
  ({ status := 501, body := "log level control not supported for in-memory logger\n" }, l)

/-! ## slog backend (`slog.go`)

`slog.Level` is an integer (`LevelDebug = -4`, `LevelInfo = 0`,
`LevelWarn = 4`, `LevelError = 8`); the `slog.LevelVar` level store is the
`level` field of the record.  The delegating emission methods
(`Debug`/`Info`/... forwarding to `log/slog`) are modelled only as far as
the claims need: the library's gating contract (emit iff the record level
is at least the handler level) and the source fact that `Fatal` emits
through `logger.Error`. -/

/-- `slog.LevelDebug = -4` (external `log/slog` constant). -/
def slogLevelDebug : Int := -4

/-- `slog.LevelInfo = 0` (external `log/slog` constant). -/
def slogLevelInfo : Int := 0

/-- `slog.LevelWarn = 4` (external `log/slog` constant). -/
def slogLevelWarn : Int := 4

/-- `slog.LevelError = 8` (external `log/slog` constant). -/
def slogLevelError : Int := 8

/-- `slog.Level.String()` from the Go standard library (external
collaborator, modelled from its documented behaviour): the name of the
nearest lower named level plus a signed offset, e.g. `-4 ↦ "DEBUG"`,
`0 ↦ "INFO"`, `4 ↦ "WARN"`, `8 ↦ "ERROR"`, `1 ↦ "INFO+1"`. -/
def slogLevelString (l : Int) : String :=
  let suffix : Int → String := fun n =>
    if n = 0 then "" else if n > 0 then "+" ++ toString n else toString n
  if l < slogLevelInfo then "DEBUG" ++ suffix (l - slogLevelDebug)
  else if l < slogLevelWarn then "INFO" ++ suffix (l - slogLevelInfo)
  else if l < slogLevelError then "WARN" ++ suffix (l - slogLevelWarn)
  else "ERROR" ++ suffix (l - slogLevelError)

/-- `slogLogger` from `slog.go`: only the level store (`*slog.LevelVar`)
carries state relevant to the claims; the wrapped `*slog.Logger` is the
external collaborator. -/
structure slogLogger where
  level : Int
deriving Repr, DecidableEq

/-- `parseSlogLevel(level string) (slog.Level, error)` from `slog.go`.
The Go function returns `(slog.LevelInfo, error)` on the default branch;
every caller replaces the value by `slog.LevelInfo` when the error is
non-nil, so the pair is modelled as `Except` with the error message. -/
def parseSlogLevel (level : String) : Except String Int :=
  if level = "debug" then .ok slogLevelDebug
  else if level = "info" then .ok slogLevelInfo
  else if level = "warn" then .ok slogLevelWarn
  else if level = "error" then .ok slogLevelError
  else if level = "fatal" then .ok slogLevelError
  else .error "invalid log level"

/-- `slogLogger.LogLevel`: `l.level.Level().String()`. -/
def slogLogger.LogLevel (l : slogLogger) : String :=
  slogLevelString l.level

/-- The level store of `newSlogLogger(cfg)` from `slog.go`: parse the
resolved configuration level, fall back to `slog.LevelInfo` on a parse
error.  The choice of text vs JSON handler depends only on `cfg.Env` and
does not affect the level store. -/
def newSlogLogger (envVal : String) (cfg : Config) : slogLogger :=
  let logLevel := match parseSlogLevel (getLogLevel envVal cfg) with
    | .ok lv => lv
    | .error _ => slogLevelInfo
  { level := logLevel }

/-- The `switch r.Method` dispatch of `slogLogger.HTTPLevelHandler` after
the authorization check: `GET` reports the level as JSON, `PUT` decodes
the payload, parses the level and stores it, and any other method is
answered 405. -/
def slogLogger.dispatch (l : slogLogger) (r : HttpRequest) : HttpResponse × slogLogger :=
  if r.method = "GET" then
    ({ status := 200,
       body := "\x7b\"level\":\"" ++ slogLevelString l.level ++ "\"\x7d\n" }, l)
  else if r.method = "PUT" then
    match r.body with
    | none => ({ status := 400, body := "invalid payload\n" }, l)
    | some s =>
      match parseSlogLevel s with
      | .error e => ({ status := 400, body := e ++ "\n" }, l)
      | .ok newLevel => ({ status := 200, body := "" }, { l with level := newLevel })
  else ({ status := 405, body := "method not allowed\n" }, l)

/-- `slogLogger.HTTPLevelHandler(authHandler)` from `slog.go`: the
authorization predicate, when non-nil, is consulted before anything else
(a refused request is answered 403 before any method dispatch); otherwise
the request is dispatched on its method. -/
def slogLogger.HTTPLevelHandler (authHandler : AuthorizationHandler) (l : slogLogger)
    (r : HttpRequest) : HttpResponse × slogLogger :=
  match authHandler with
  | some auth =>
    if auth r then slogLogger.dispatch l r
    else ({ status := 403, body := "unauthorized\n" }, l)
  | none => slogLogger.dispatch l r

/-- The `log/slog` handler gating contract (external collaborator):
a record at level `lvl` is emitted iff `lvl` is at least the handler's
minimum level. -/
def slogEnabled (l : slogLogger) (lvl : Int) : Bool :=
  l.level ≤ lvl

/-- Emission of `slogLogger.Error` from `slog.go`: a record at
`slog.LevelError`, subject to the library's gating; `some (lvl, msg)`
when emitted, `none` when suppressed. -/
def slogLogger.errorEmission (l : slogLogger) (msg : String) : Option (Int × String) :=
  if slogEnabled l slogLevelError then some (slogLevelError, msg) else none

/-- Emission of `slogLogger.Fatal` from `slog.go`: the source calls
`l.logger.Error(msg, kv...)` and then `os.Exit(1)`; the emitted record is
exactly the `Error` one (the process exit is outside the embedding). -/
def slogLogger.fatalEmission (l : slogLogger) (msg : String) : Option (Int × String) :=
  l.errorEmission msg

/-! ## zap backend (`zap.go`)

`zapcore.Level` is an integer (`Debug = -1`, `Info = 0`, `Warn = 1`,
`Error = 2`, `DPanic = 3`, `Panic = 4`, `Fatal = 5`).  The
`zap.AtomicLevel` level store is the `level` field.  The level text
parser (`zapcore.Level.UnmarshalText`), the level names
(`zapcore.Level.String`) and the `zap.AtomicLevel.ServeHTTP` endpoint are
external `go.uber.org/zap` collaborators, modelled from their documented
contracts. -/

/-- `zapLogger` from `zap.go`: the `*zap.AtomicLevel` level store. -/
structure zapLogger where
  level : Int
deriving Repr, DecidableEq

/-- `zapcore.Level.UnmarshalText` (external collaborator): accepts the
seven zap level names in lower or upper case, and the empty string as
`info`; anything else is rejected. -/
def zapUnmarshalLevel (text : String) : Option Int :=
  if text = "debug" ∨ text = "DEBUG" then some (-1)
  else if text = "info" ∨ text = "INFO" ∨ text = "" then some 0
  else if text = "warn" ∨ text = "WARN" then some 1
  else if text = "error" ∨ text = "ERROR" then some 2
  else if text = "dpanic" ∨ text = "DPANIC" then some 3
  else if text = "panic" ∨ text = "PANIC" then some 4
  else if text = "fatal" ∨ text = "FATAL" then some 5
  else none

/-- `zapcore.Level.String` (external collaborator): the lowercase level
name. -/
def zapLevelString (l : Int) : String :=
  if l = -1 then "debug"
  else if l = 0 then "info"
  else if l = 1 then "warn"
  else if l = 2 then "error"
  else if l = 3 then "dpanic"
  else if l = 4 then "panic"
  else if l = 5 then "fatal"
  else "Level(" ++ toString l ++ ")"

/-- The level store set up by `createZapConfig(cfg)` in `zap.go`: resolve
the configured level through `getLogLevel`, unmarshal it with zap's level
parser, and fall back to `zapcore.InfoLevel` when unmarshalling fails.
The encoder and environment handling of `createZapConfig` do not touch
the level and are omitted. -/
def createZapConfigLevel (envVal : String) (cfg : Config) : Int :=
  let logLevel := getLogLevel envVal cfg
  match zapUnmarshalLevel logLevel with
  | some lv => lv
  | none => 0

/-- The level store of `newZapLogger(cfg)` from `zap.go`: the atomic
level of the config built by `createZapConfig`. -/
def newZapLogger (envVal : String) (cfg : Config) : zapLogger :=
  { level := createZapConfigLevel envVal cfg }

/-- `zapLogger.LogLevel`: `l.logger.Level().String()`, the lowercase name
of the current level. -/
def zapLogger.LogLevel (l : zapLogger) : String :=
  zapLevelString l.level

/-- `zap.AtomicLevel.ServeHTTP` (external collaborator, modelled from its
contract): `GET` reports the current level as JSON; `PUT` decodes a
`{"level": string}` payload, rejects an undecodable body or an
unrecognized level with 400, and otherwise stores the new level and
answers 200; any other method is answered 405. -/
def zapAtomicLevelServeHTTP (l : zapLogger) (r : HttpRequest) : HttpResponse × zapLogger :=
  if r.method = "GET" then
    ({ status := 200,
       body := "\x7b\"level\":\"" ++ zapLevelString l.level ++ "\"\x7d\n" }, l)
  else if r.method = "PUT" then
    match r.body with
    | none => ({ status := 400, body := "invalid request body\n" }, l)
    | some s =>
      match zapUnmarshalLevel s with
      | none => ({ status := 400, body := "unrecognized level\n" }, l)
      | some newLevel =>
        ({ status := 200,
           body := "\x7b\"level\":\"" ++ zapLevelString newLevel ++ "\"\x7d\n" },
         { l with level := newLevel })
  else ({ status := 405, body := "only GET and PUT are supported\n" }, l)

/-- `zapLogger.HTTPLevelHandler(authHandler)` from `zap.go`: the
authorization predicate, when non-nil, is consulted first (403 on
refusal); otherwise the request is handed to `zap.AtomicLevel`'s own
endpoint. -/
def zapLogger.HTTPLevelHandler (authHandler : AuthorizationHandler) (l : zapLogger)
    (r : HttpRequest) : HttpResponse × zapLogger :=
  match authHandler with
  | some auth =>
    if auth r then zapAtomicLevelServeHTTP l r
    else ({ status := 403, body := "unauthorized\n" }, l)
  | none => zapAtomicLevelServeHTTP l r

/-! ## In-memory backend, earlier variant (`src/unnamed/part_000`)

An earlier revision of `inMemory.go` kept in the repository snapshot: its
constructor stores `cfg.LogLevel` without any validation, it has no
injected-field sequence (`With` returns the logger unchanged), and its
level-control handler is the same unconditional 501. -/

/-- The earlier `InMemoryLogger` (`part_000`): buffer and stored level
only. -/
structure InMemoryLoggerV0 where
  buffer : String
  logLevel : String
deriving Repr, DecidableEq

/-- `newInMemoryLogger(cfg)` from `part_000`: the configured level is
stored as-is, with no validation or coercion. -/
def InMemoryLoggerV0.new (cfg : Config) : InMemoryLoggerV0 :=
  { buffer := "", logLevel := cfg.LogLevel }

/-- `InMemoryLogger.log` from `part_000`: same line format as the current
version, without injected fields. -/
def InMemoryLoggerV0.log (l : InMemoryLoggerV0) (level msg : String) (kv : List String) :
    InMemoryLoggerV0 :=
  { l with buffer := l.buffer ++ "[" ++ level ++ "] " ++ msg ++ pairTokens kv ++ "\n" }

/-- `InMemoryLogger.Info` from `part_000`: same guard as the current
version. -/
def InMemoryLoggerV0.Info (l : InMemoryLoggerV0) (msg : String) (kv : List String) :
    InMemoryLoggerV0 :=
  if l.logLevel = DebugLevel ∨ l.logLevel = InfoLevel then l.log "INFO" msg kv else l

/-- `InMemoryLogger.LogLevel` from `part_000`. -/
def InMemoryLoggerV0.LogLevel (l : InMemoryLoggerV0) : String :=
  l.logLevel

/-- `InMemoryLogger.HTTPLevelHandler` from `part_000`: identical
unconditional 501. -/
def InMemoryLoggerV0.HTTPLevelHandler (l : InMemoryLoggerV0) (r : HttpRequest) :
    HttpResponse × InMemoryLoggerV0 :=
  ({ status := 501, body := "log level control not supported for in-memory logger\n" }, l)

/-! ## Helper lemmas -/

/-- The injected-field tokens of a concatenation are the concatenated
tokens. -/
theorem fieldTokens_append (xs ys : List String) :
    fieldTokens (xs ++ ys) = fieldTokens xs ++ fieldTokens ys := by
  induction xs with
  | nil => simp [fieldTokens]
  | cons f rest ih => simp [fieldTokens, ih, String.append_assoc]

/-- The two-at-a-time pairing loop of `log` ignores an odd trailing
element. -/
theorem pairTokens_dropLast_odd :
    ∀ kv : List String, kv.length % 2 = 1 → pairTokens kv = pairTokens kv.dropLast := by
  intro kv
  induction kv using pairTokens.induct with
  | case1 k v rest ih =>
    intro hodd
    have hrest : rest.length % 2 = 1 := by
      simp only [List.length_cons] at hodd
      omega
    cases rest with
    | nil => simp at hrest
    | cons r rs =>
      have hdl : (k :: v :: r :: rs).dropLast = k :: v :: (r :: rs).dropLast := rfl
      rw [hdl]
      simp only [pairTokens]
      rw [ih hrest]
  | case2 t h1 =>
    intro hodd
    cases t with
    | nil => rfl
    | cons x xs =>
      cases xs with
      | nil => rfl
      | cons y ys => exact (h1 x y ys rfl).elim

/-- The two-at-a-time pairing loop of `With` ignores an odd trailing
element. -/
theorem pairFields_dropLast_odd :
    ∀ kv : List String, kv.length % 2 = 1 → pairFields kv = pairFields kv.dropLast := by
  intro kv
  induction kv using pairFields.induct with
  | case1 k v rest ih =>
    intro hodd
    have hrest : rest.length % 2 = 1 := by
      simp only [List.length_cons] at hodd
      omega
    cases rest with
    | nil => simp at hrest
    | cons r rs =>
      have hdl : (k :: v :: r :: rs).dropLast = k :: v :: (r :: rs).dropLast := rfl
      rw [hdl]
      simp only [pairFields]
      rw [ih hrest]
  | case2 t h1 =>
    intro hodd
    cases t with
    | nil => rfl
    | cons x xs =>
      cases xs with
      | nil => rfl
      | cons y ys => exact (h1 x y ys rfl).elim

/-! ## Claim theorems -/

/-- C7: on a freshly constructed DEBUG-level in-memory logger, after one
`Info("x")` call, `Entries()` is the two-element sequence whose first
element is `"[INFO] x"` and whose final element is the empty string (the
artifact of splitting on the final line separator). -/
theorem claim7_entries_after_one_info :
    ((newInMemoryLogger { LogLevel := "debug" }).Info "x" []).Entries = ["[INFO] x", ""] ∧
    ((newInMemoryLogger { LogLevel := "debug" }).Info "x" []).Entries.head? = some "[INFO] x" ∧
    ((newInMemoryLogger { LogLevel := "debug" }).Info "x" []).Entries.getLast? = some "" := by
  decide

/-- C9: the in-memory backend's level-control handler (in both revisions
kept in the repository) answers every request with status 501 — whatever
the method, payload or caller — and never changes the logger's state, so
the level store is never mutated through it. -/
theorem claim9_in_memory_handler_always_501 (l : InMemoryLogger) (l0 : InMemoryLoggerV0)
    (r r0 : HttpRequest) :
    l.HTTPLevelHandler r =
      ({ status := 501, body := "log level control not supported for in-memory logger\n" }, l) ∧
    l0.HTTPLevelHandler r0 =
      ({ status := 501, body := "log level control not supported for in-memory logger\n" }, l0) := by
  exact ⟨rfl, rfl⟩

/-- C8: an odd key/value argument list has its unpaired trailing element
dropped silently: the pairing loops of `With` and `log` produce the same
result as on the list without its last element, `With("onlyKey")` leaves
the logger unchanged (nothing is appended to the injected fields), and an
odd trailing element of a leveled call's arguments contributes no
`key=value` token to the formatted entry. -/
theorem claim8_odd_trailing_element_dropped (l : InMemoryLogger) (lvl msg : String)
    (kv : List String) (hodd : kv.length % 2 = 1) :
    pairFields kv = pairFields kv.dropLast ∧
    pairTokens kv = pairTokens kv.dropLast ∧
    l.With ["onlyKey"] = l ∧
    l.log lvl msg kv = l.log lvl msg kv.dropLast := by
  refine ⟨pairFields_dropLast_odd kv hodd, pairTokens_dropLast_odd kv hodd, ?_, ?_⟩
  · simp [InMemoryLogger.With, pairFields]
  · simp [InMemoryLogger.log, logLine, pairTokens_dropLast_odd kv hodd]

/-- Witness for C8 at the concrete odd list `["k"]` and a concrete
logger. -/
theorem claim8_witness :
    pairFields ["k"] = pairFields (["k"] : List String).dropLast ∧
    pairTokens ["k"] = pairTokens (["k"] : List String).dropLast ∧
    (newInMemoryLogger { LogLevel := "warn" }).With ["onlyKey"] = newInMemoryLogger { LogLevel := "warn" } ∧
    (newInMemoryLogger { LogLevel := "warn" }).log "INFO" "m" ["k"] =
      (newInMemoryLogger { LogLevel := "warn" }).log "INFO" "m" (["k"] : List String).dropLast :=
  claim8_odd_trailing_element_dropped (newInMemoryLogger { LogLevel := "warn" }) "INFO" "m"
    ["k"] (by decide)

/-- C6: field injection on the in-memory logger is monotonic and ordered.
After `With("a","1")` then `With("b","2")` the injected-field sequence is
the old one extended by `a=1` then `b=2` (and only the field sequence
changes: buffer and level are untouched, reflecting that the Go method
mutates and returns the very same instance, modelled here by threading
one state value).  Every entry emitted afterwards carries the call-site
pair tokens first and then the injected-field tokens, ending in
` a=1 b=2`; later `With` calls only append further, so the two fields
persist in that order. -/
theorem claim6_with_fields_monotonic_ordered (l : InMemoryLogger) (tag msg : String)
    (kv kv2 : List String) :
    ((l.With ["a", "1"]).With ["b", "2"]).injectedFields = l.injectedFields ++ ["a=1", "b=2"] ∧
    ((l.With ["a", "1"]).With ["b", "2"]).buffer = l.buffer ∧
    ((l.With ["a", "1"]).With ["b", "2"]).logLevel = l.logLevel ∧
    (((l.With ["a", "1"]).With ["b", "2"]).log tag msg kv).buffer =
      l.buffer ++ ("[" ++ tag ++ "] " ++ msg ++ pairTokens kv
        ++ (fieldTokens l.injectedFields ++ " a=1 b=2")) ++ "\n" ∧
    (((l.With ["a", "1"]).With ["b", "2"]).With kv2).injectedFields =
      l.injectedFields ++ ["a=1", "b=2"] ++ pairFields kv2 := by
  refine ⟨?_, rfl, rfl, ?_, ?_⟩
  · simp [InMemoryLogger.With, pairFields]
  · have htok : fieldTokens (l.injectedFields ++ ["a=1", "b=2"]) =
        fieldTokens l.injectedFields ++ " a=1 b=2" := by
      rw [fieldTokens_append]
      congr 1
    simp [InMemoryLogger.With, InMemoryLogger.log, logLine, pairFields, htok,
      String.append_assoc]
  · simp [InMemoryLogger.With, pairFields]

/-- `log` strictly lengthens the buffer: an emitted entry is really
appended. -/
theorem log_buffer_grows (l : InMemoryLogger) (lvl msg : String) (kv : List String) :
    l.buffer.length < (l.log lvl msg kv).buffer.length := by
  have h1 : ("\n" : String).length = 1 := rfl
  simp [InMemoryLogger.log, String.length_append, h1]
  omega

/-- Every constructed in-memory logger stores one of the five recognized
level strings. -/
theorem newInMemoryLogger_valid (cfg : Config) :
    (severityOfString (newInMemoryLogger cfg).logLevel).isSome = true := by
  unfold newInMemoryLogger
  by_cases h : isValidLogLevel cfg.LogLevel
  · unfold isValidLogLevel at h
    split_ifs at h with h1 h2 h3 h4 h5 <;>
      simp_all [severityOfString, isValidLogLevel, DebugLevel, InfoLevel, WarnLevel,
        ErrorLevel, FatalLevel]
  · simp [h, severityOfString, InfoLevel]

/-- Inversion of the spec-side level parsing. -/
theorem severityOfString_cases (s : String) (cur : Severity)
    (h : severityOfString s = some cur) :
    s = "debug" ∧ cur = .debug ∨ s = "info" ∧ cur = .info ∨ s = "warn" ∧ cur = .warn ∨
    s = "error" ∧ cur = .error ∨ s = "fatal" ∧ cur = .fatal := by
  unfold severityOfString at h
  split at h <;> simp_all

/-- C1: emission from the in-memory logger is gated by the total order
debug < info < warn < error < fatal.  For every logger state holding a
recognized level (which every constructed logger does — conjunct six),
each of the five leveled calls appends exactly one entry iff the
candidate severity's rank is at least the current level's rank
(`shouldEmit`), and `log` genuinely appends.  In particular the logger
constructed at WARN, after one call of each kind, records exactly the
three entries tagged WARN, ERROR, FATAL in call order (followed by the
trailing empty piece of the final line separator). -/
theorem claim1_level_gating (l : InMemoryLogger) (cur : Severity)
    (hcur : severityOfString l.logLevel = some cur) (msg : String) (kv : List String) :
    (l.Debug msg kv = if shouldEmit cur .debug then l.log "DEBUG" msg kv else l) ∧
    (l.Info msg kv = if shouldEmit cur .info then l.log "INFO" msg kv else l) ∧
    (l.Warn msg kv = if shouldEmit cur .warn then l.log "WARN" msg kv else l) ∧
    (l.Error msg kv = if shouldEmit cur .error then l.log "ERROR" msg kv else l) ∧
    (l.Fatal msg kv = if shouldEmit cur .fatal then l.log "FATAL" msg kv else l) ∧
    (∀ cfg : Config, (severityOfString (newInMemoryLogger cfg).logLevel).isSome = true) ∧
    (∀ lvl m kv', l.buffer.length < (l.log lvl m kv').buffer.length) ∧
    ((((((newInMemoryLogger { LogLevel := "warn" }).Debug "d" []).Info "i" []).Warn "w"
        []).Error "e" []).Fatal "f" []).Entries = ["[WARN] w", "[ERROR] e", "[FATAL] f", ""] := by
  have hg := severityOfString_cases l.logLevel cur hcur
  refine ⟨?_, ?_, ?_, ?_, ?_, fun cfg => newInMemoryLogger_valid cfg,
    fun lvl m kv' => log_buffer_grows l lvl m kv', by decide⟩ <;>
    rcases hg with ⟨he, hc⟩ | ⟨he, hc⟩ | ⟨he, hc⟩ | ⟨he, hc⟩ | ⟨he, hc⟩ <;> subst hc <;>
    simp [InMemoryLogger.Debug, InMemoryLogger.Info, InMemoryLogger.Warn, InMemoryLogger.Error,
      InMemoryLogger.Fatal, shouldEmit, Severity.rank, he, DebugLevel, InfoLevel, WarnLevel,
      ErrorLevel, FatalLevel]

/-- Witness for C1 at the concrete WARN-level logger with current severity
`warn`. -/
theorem claim1_witness :
    ((newInMemoryLogger { LogLevel := "warn" }).Debug "m" [] =
      if shouldEmit .warn .debug then (newInMemoryLogger { LogLevel := "warn" }).log "DEBUG" "m" []
      else newInMemoryLogger { LogLevel := "warn" }) ∧
    ((newInMemoryLogger { LogLevel := "warn" }).Info "m" [] =
      if shouldEmit .warn .info then (newInMemoryLogger { LogLevel := "warn" }).log "INFO" "m" []
      else newInMemoryLogger { LogLevel := "warn" }) ∧
    ((newInMemoryLogger { LogLevel := "warn" }).Warn "m" [] =
      if shouldEmit .warn .warn then (newInMemoryLogger { LogLevel := "warn" }).log "WARN" "m" []
      else newInMemoryLogger { LogLevel := "warn" }) ∧
    ((newInMemoryLogger { LogLevel := "warn" }).Error "m" [] =
      if shouldEmit .warn .error then (newInMemoryLogger { LogLevel := "warn" }).log "ERROR" "m" []
      else newInMemoryLogger { LogLevel := "warn" }) ∧
    ((newInMemoryLogger { LogLevel := "warn" }).Fatal "m" [] =
      if shouldEmit .warn .fatal then (newInMemoryLogger { LogLevel := "warn" }).log "FATAL" "m" []
      else newInMemoryLogger { LogLevel := "warn" }) ∧
    (∀ cfg : Config, (severityOfString (newInMemoryLogger cfg).logLevel).isSome = true) ∧
    (∀ lvl m kv', (newInMemoryLogger { LogLevel := "warn" }).buffer.length <
      ((newInMemoryLogger { LogLevel := "warn" }).log lvl m kv').buffer.length) ∧
    ((((((newInMemoryLogger { LogLevel := "warn" }).Debug "d" []).Info "i" []).Warn "w"
        []).Error "e" []).Fatal "f" []).Entries = ["[WARN] w", "[ERROR] e", "[FATAL] f", ""] :=
  claim1_level_gating (newInMemoryLogger { LogLevel := "warn" }) .warn (by decide) "m" []

/-- C2: for the dynamic level-control handlers (slog and zap), a supplied
authorization predicate that refuses the request yields 403 with the
level store unchanged, before any method dispatch — so for every method
and body; and an authorized `PUT` whose body is malformed JSON
(`body = none`) or carries a level string rejected by `parseSlogLevel`
is answered 400 with the level store unchanged: no partially-applied
level change. -/
theorem claim2_auth_and_bad_put (l : slogLogger) (z : zapLogger) (auth : HttpRequest → Bool)
    (r1 r2 : HttpRequest) (h1 : auth r1 = false) (h2 : auth r2 = true)
    (h3 : r2.method = "PUT")
    (h4 : r2.body = none ∨ ∃ s e, r2.body = some s ∧ parseSlogLevel s = .error e) :
    slogLogger.HTTPLevelHandler (some auth) l r1 =
      ({ status := 403, body := "unauthorized\n" }, l) ∧
    zapLogger.HTTPLevelHandler (some auth) z r1 =
      ({ status := 403, body := "unauthorized\n" }, z) ∧
    (slogLogger.HTTPLevelHandler (some auth) l r2).1.status = 400 ∧
    (slogLogger.HTTPLevelHandler (some auth) l r2).2 = l := by
  refine ⟨?_, ?_, ?_, ?_⟩
  · simp [slogLogger.HTTPLevelHandler, h1]
  · simp [zapLogger.HTTPLevelHandler, h1]
  all_goals
    rcases h4 with hb | ⟨s, e, hb, hp⟩
  all_goals
    simp [slogLogger.HTTPLevelHandler, slogLogger.dispatch, h2, h3, hb]
  all_goals
    simp [hp]

/-- Witness for C2: a concrete predicate authorizing only `PUT`, a refused
`GET` and an authorized `PUT` with a malformed body. -/
theorem claim2_witness :
    slogLogger.HTTPLevelHandler (some fun r => r.method == "PUT") { level := 0 }
        { method := "GET", body := none } =
      ({ status := 403, body := "unauthorized\n" }, { level := 0 }) ∧
    zapLogger.HTTPLevelHandler (some fun r => r.method == "PUT") { level := 0 }
        { method := "GET", body := none } =
      ({ status := 403, body := "unauthorized\n" }, { level := 0 }) ∧
    (slogLogger.HTTPLevelHandler (some fun r => r.method == "PUT") { level := 0 }
        { method := "PUT", body := none }).1.status = 400 ∧
    (slogLogger.HTTPLevelHandler (some fun r => r.method == "PUT") { level := 0 }
        { method := "PUT", body := none }).2 = { level := 0 } :=
  claim2_auth_and_bad_put { level := 0 } { level := 0 } (fun r => r.method == "PUT")
    { method := "GET", body := none } { method := "PUT", body := none }
    (by decide) (by decide) rfl (Or.inl rfl)

/-- C3 counterexample: the claim asserts that after an authorized
`PUT {"level":"debug"}` every dynamic backend's `LogLevel()` returns
exactly the string `"debug"`.  On the slog backend constructed at info,
the `PUT` does return 200 and does store `slog.LevelDebug`, but
`LogLevel()` is `slog.Level.String()`, which renders it as the uppercase
`"DEBUG"`, not `"debug"`. -/
theorem claim3_counterexample :
    (slogLogger.HTTPLevelHandler (some fun _ => true) (newSlogLogger "" { LogLevel := "info" })
      { method := "PUT", body := some "debug" }).1.status = 200 ∧
    (slogLogger.HTTPLevelHandler (some fun _ => true) (newSlogLogger "" { LogLevel := "info" })
      { method := "PUT", body := some "debug" }).2.LogLevel = "DEBUG" ∧
    ("DEBUG" : String) ≠ "debug" := by
  decide

/-- C3 (amended): for both dynamic-capable backends constructed at level
info, an authorized `PUT {"level":"debug"}` returns 200 and the level
store now holds the debug level; the subsequent `LogLevel()` reports that
level in each backend's own rendering — the zap backend returns
`"debug"`, the slog backend returns the uppercase `"DEBUG"`. -/
theorem claim3_put_debug_amended :
    (zapLogger.HTTPLevelHandler (some fun _ => true) (newZapLogger "" { LogLevel := "info" })
      { method := "PUT", body := some "debug" }).1.status = 200 ∧
    (zapLogger.HTTPLevelHandler (some fun _ => true) (newZapLogger "" { LogLevel := "info" })
      { method := "PUT", body := some "debug" }).2.LogLevel = "debug" ∧
    (slogLogger.HTTPLevelHandler (some fun _ => true) (newSlogLogger "" { LogLevel := "info" })
      { method := "PUT", body := some "debug" }).1.status = 200 ∧
    (slogLogger.HTTPLevelHandler (some fun _ => true) (newSlogLogger "" { LogLevel := "info" })
      { method := "PUT", body := some "debug" }).2.level = slogLevelDebug ∧
    (slogLogger.HTTPLevelHandler (some fun _ => true) (newSlogLogger "" { LogLevel := "info" })
      { method := "PUT", body := some "debug" }).2.LogLevel = "DEBUG" := by
  decide

/-- C10: `parseSlogLevel` accepts exactly the five lowercase level
strings, and maps `"fatal"` to the same internal level as `"error"`
(`slog.LevelError`) without reporting an error; hence an authorized
`PUT {"level":"fatal"}` succeeds with 200 and leaves the store at the
error level, reported as `"ERROR"`, and the slog backend's `Fatal`
emission is the `Error` emission (the source routes `Fatal` through
`logger.Error`), so the two are gated identically. -/
theorem claim10_fatal_maps_to_error :
    (∀ s, (parseSlogLevel s).isOk = true ↔
      (s = "debug" ∨ s = "info" ∨ s = "warn" ∨ s = "error" ∨ s = "fatal")) ∧
    parseSlogLevel "fatal" = .ok slogLevelError ∧
    parseSlogLevel "fatal" = parseSlogLevel "error" ∧
    (∀ l : slogLogger,
      slogLogger.HTTPLevelHandler (some fun _ => true) l { method := "PUT", body := some "fatal" } =
        ({ status := 200, body := "" }, { level := slogLevelError })) ∧
    slogLevelString slogLevelError = "ERROR" ∧
    (∀ (l : slogLogger) (msg : String), l.fatalEmission msg = l.errorEmission msg) := by
  refine ⟨?_, rfl, rfl, ?_, by decide, fun l msg => rfl⟩
  · intro s
    unfold parseSlogLevel
    split_ifs <;> simp_all [Except.isOk, Except.toBool]
  · intro l
    simp [slogLogger.HTTPLevelHandler, slogLogger.dispatch, parseSlogLevel]

/-- C4 counterexample: the claim — every constructor coerces an empty or
unrecognized initial level string to INFO — fails on the earlier
in-memory constructor kept in the repository (`src/unnamed/part_000`),
which stores the configured level without validation: constructed with
level `"foo"` it reports `"foo"`, not `"info"` (and at that stored level
only `Fatal` would emit). -/
theorem claim4_counterexample :
    (InMemoryLoggerV0.new { LogLevel := "foo" }).LogLevel = "foo" ∧
    ("foo" : String) ≠ "info" ∧
    isValidLogLevel "foo" = false := by
  decide

/-- C4 (amended): with the environment override absent, an empty or
unrecognized (not one of the five lowercase strings) configured level is
coerced to INFO by the validating constructors: the current in-memory
constructor stores `"info"`, and the slog constructor stores
`slog.LevelInfo` (reported `"INFO"`); the zap constructor stores
`zapcore.InfoLevel` whenever the level is empty or rejected by zap's own
(case-insensitive, seven-name) parser — but not for strings such as
`"DEBUG"` that zap recognizes although they are outside the five.  The
`part_000` in-memory variant constructor performs no coercion at all and
stores the invalid string unchanged. -/
theorem claim4_invalid_level_defaults_info_amended (cfg : Config)
    (h : isValidLogLevel cfg.LogLevel = false) :
    (newInMemoryLogger cfg).logLevel = "info" ∧
    (newSlogLogger "" cfg).level = slogLevelInfo ∧
    (newSlogLogger "" cfg).LogLevel = "INFO" ∧
    ((cfg.LogLevel = "" ∨ zapUnmarshalLevel cfg.LogLevel = none) →
      createZapConfigLevel "" cfg = 0) ∧
    (InMemoryLoggerV0.new cfg).logLevel = cfg.LogLevel := by
  have h1 : cfg.LogLevel ≠ "debug" := fun e => by
    simp [isValidLogLevel, DebugLevel, e] at h
  have h2 : cfg.LogLevel ≠ "info" := fun e => by
    simp [isValidLogLevel, DebugLevel, InfoLevel, e] at h
  have h3 : cfg.LogLevel ≠ "warn" := fun e => by
    simp [isValidLogLevel, DebugLevel, InfoLevel, WarnLevel, e] at h
  have h4 : cfg.LogLevel ≠ "error" := fun e => by
    simp [isValidLogLevel, DebugLevel, InfoLevel, WarnLevel, ErrorLevel, e] at h
  have h5 : cfg.LogLevel ≠ "fatal" := fun e => by
    simp [isValidLogLevel, DebugLevel, InfoLevel, WarnLevel, ErrorLevel, FatalLevel, e] at h
  refine ⟨?_, ?_, ?_, ?_, rfl⟩
  · simp [newInMemoryLogger, h, InfoLevel]
  · by_cases he : cfg.LogLevel = "" <;>
      simp [newSlogLogger, getLogLevel, parseSlogLevel, he, h1, h2, h3, h4, h5, InfoLevel,
        slogLevelInfo]
  · by_cases he : cfg.LogLevel = "" <;>
      simp [slogLogger.LogLevel, newSlogLogger, getLogLevel, parseSlogLevel, he, h1, h2, h3,
        h4, h5, InfoLevel, slogLevelInfo, slogLevelString, slogLevelWarn]
  · rintro (he | hz)
    · simp [createZapConfigLevel, getLogLevel, he, InfoLevel, zapUnmarshalLevel]
    · have he : cfg.LogLevel ≠ "" := fun e => by simp [zapUnmarshalLevel, e] at hz
      simp [createZapConfigLevel, getLogLevel, he, hz]

/-- Witness for C4 (amended) at the concrete invalid level `"foo"`. -/
theorem claim4_witness :
    (newInMemoryLogger { LogLevel := "foo" }).logLevel = "info" ∧
    (newSlogLogger "" { LogLevel := "foo" }).level = slogLevelInfo ∧
    (newSlogLogger "" { LogLevel := "foo" }).LogLevel = "INFO" ∧
    ((Config.LogLevel { LogLevel := "foo" } = "" ∨
        zapUnmarshalLevel (Config.LogLevel { LogLevel := "foo" }) = none) →
      createZapConfigLevel "" { LogLevel := "foo" } = 0) ∧
    (InMemoryLoggerV0.new { LogLevel := "foo" }).logLevel =
      Config.LogLevel { LogLevel := "foo" } :=
  claim4_invalid_level_defaults_info_amended { LogLevel := "foo" } (by decide)

/-- C5 counterexample: the claim — a present, valid environment override
determines the initial level of every backend — fails on the in-memory
constructor, which never consults the environment: with
`AZA_LOG_LEVEL="debug"` (a valid level, and indeed what `getLogLevel`
would resolve) and configured level `"warn"`, the constructed in-memory
logger reports `"warn"`. -/
theorem claim5_counterexample :
    isValidLogLevel "debug" = true ∧
    getLogLevel "debug" { LogLevel := "warn" } = "debug" ∧
    (newInMemoryLogger { LogLevel := "warn" }).LogLevel = "warn" ∧
    ("warn" : String) ≠ "debug" := by
  decide

/-- C5 (amended): a present, valid environment override wins over any
caller-supplied configuration level for the constructors that resolve
their level through `getLogLevel` — slog and zap: `getLogLevel` returns
the environment value, and the resulting level stores depend only on it,
not on the configuration.  The in-memory constructor does not call
`getLogLevel` and keeps the caller-supplied (validated) level. -/
theorem claim5_env_override_amended (envVal : String) (cfg cfg2 : Config)
    (h : isValidLogLevel envVal = true) :
    getLogLevel envVal cfg = envVal ∧
    newSlogLogger envVal cfg =
      { level := match parseSlogLevel envVal with
                 | .ok lv => lv
                 | .error _ => slogLevelInfo } ∧
    newSlogLogger envVal cfg = newSlogLogger envVal cfg2 ∧
    (∃ lv, zapUnmarshalLevel envVal = some lv ∧
      createZapConfigLevel envVal cfg = lv ∧ createZapConfigLevel envVal cfg2 = lv) := by
  have hcases : envVal = "debug" ∨ envVal = "info" ∨ envVal = "warn" ∨ envVal = "error" ∨
      envVal = "fatal" := by
    unfold isValidLogLevel at h
    split_ifs at h with h1 h2 h3 h4 h5 <;>
      simp_all [DebugLevel, InfoLevel, WarnLevel, ErrorLevel, FatalLevel]
  have hne : envVal ≠ "" := by
    rcases hcases with e | e | e | e | e <;> simp [e]
  have hget : ∀ c : Config, getLogLevel envVal c = envVal := fun c => by
    simp [getLogLevel, hne]
  refine ⟨hget cfg, ?_, ?_, ?_⟩
  · simp [newSlogLogger, hget]
  · simp [newSlogLogger, hget]
  · rcases hcases with e | e | e | e | e <;> subst e <;>
      exact ⟨_, rfl, by simp [createZapConfigLevel, hget, zapUnmarshalLevel],
        by simp [createZapConfigLevel, hget, zapUnmarshalLevel]⟩

/-- Witness for C5 (amended) at environment value `"debug"` against two
different configured levels. -/
theorem claim5_witness :
    getLogLevel "debug" { LogLevel := "warn" } = "debug" ∧
    newSlogLogger "debug" { LogLevel := "warn" } =
      { level := match parseSlogLevel "debug" with
                 | .ok lv => lv
                 | .error _ => slogLevelInfo } ∧
    newSlogLogger "debug" { LogLevel := "warn" } = newSlogLogger "debug" { LogLevel := "error" } ∧
    (∃ lv, zapUnmarshalLevel "debug" = some lv ∧
      createZapConfigLevel "debug" { LogLevel := "warn" } = lv ∧
      createZapConfigLevel "debug" { LogLevel := "error" } = lv) :=
  claim5_env_override_amended "debug" { LogLevel := "warn" } { LogLevel := "error" } (by decide)
